import Mathlib

/-!
Verification of the tag-balance checker scripts `check_tags.py`,
`check_tags_v2.py` and `check_tags_v3.py`.

Strings are modelled as `List Char`.  The Python `re` operations used by the
scripts are modelled by executable scanners:

* `re.sub(p, r, s)` for the literal-ish patterns used here scans the string
  left to right, replaces each non-overlapping leftmost match and continues
  scanning right after the replaced span; this is mirrored by the fuelled
  scanners below (fuel `length + 1` always suffices because every rewrite
  step consumes at least one character of the remaining suffix).
* greedy `re.search(r'<template>(.*)</template>', s, re.DOTALL)` pairs the
  first begin marker with the LAST end marker after it (the greedy `.*`
  backtracks from the end), mirrored by `lastSplit` via reversal.
-/

/-- First occurrence of the pattern `p` in `s`: returns the part strictly
before the occurrence and the part strictly after it.  Mirrors leftmost
matching of a literal pattern. -/
def splitFirst (p : List Char) : List Char → Option (List Char × List Char)
  | [] => if p = [] then some ([], []) else none
  | x :: t =>
    if p.isPrefixOf (x :: t) then some ([], (x :: t).drop p.length)
    else
      match splitFirst p t with
      | none => none
      | some (a, r) => some (x :: a, r)

/-- Split at the LAST occurrence of `p` in `s` (the occurrence with the
greatest start index), computed by searching the reversed string for the
reversed pattern.  This mirrors the greedy `.*` of the extraction regex. -/
def lastSplit (p : List Char) (s : List Char) : Option (List Char × List Char) :=
  match splitFirst p.reverse s.reverse with
  | none => none
  | some (b, a) => some (a.reverse, b.reverse)

/-- One quote-collapsing pass of `clean_template`
(`re.sub(r'"[^"]*"', '""', template)` resp. the single-quote variant):
each pair of quotes together with its interior is replaced by an empty
literal of the same quote character.  Fuelled; each step consumes at least
two characters, so fuel `length + 1` suffices. -/
def collapseQuoteGo (c : Char) : Nat → List Char → List Char
  | 0, s => s
  | fuel + 1, s =>
    match splitFirst [c] s with
    | none => s
    | some (a, r) =>
      match splitFirst [c] r with
      | none => s
      | some (_, r') => a ++ [c, c] ++ collapseQuoteGo c fuel r'

/-- Model of `re.sub(r'"[^"]*"', '""', s)` with quote character `c`. -/
def collapseQuote (c : Char) (s : List Char) : List Char :=
  collapseQuoteGo c (s.length + 1) s

/-- The comment open marker. -/
def cmtOpen : List Char := "<!--".data

/-- The comment close marker. -/
def cmtClose : List Char := "-->".data

/-- Model of `re.sub(r'<!--.*?-->', '', template, flags=re.DOTALL)`: each comment
span (from an open marker to the first close marker after it, non-greedy)
is removed entirely.  Fuelled; each step consumes at least the two markers. -/
def removeCommentsGo : Nat → List Char → List Char
  | 0, s => s
  | fuel + 1, s =>
    match splitFirst cmtOpen s with
    | none => s
    | some (a, r) =>
      match splitFirst cmtClose r with
      | none => s
      | some (_, after) => a ++ removeCommentsGo fuel after

/-- Comment removal pass shared by `check_tags_v2.py` and `check_tags_v3.py`. -/
def removeComments (s : List Char) : List Char :=
  removeCommentsGo (s.length + 1) s

/-- The function `clean_template` from `check_tags_v3.py`, in the order the source applies the passes:
double-quote collapse, then single-quote collapse, then comment removal. -/
def clean_template (template : List Char) : List Char :=
  removeComments (collapseQuote '\'' (collapseQuote '"' template))

/-- The template begin marker. -/
def tplOpen : List Char := "<template>".data

/-- The template end marker. -/
def tplClose : List Char := "</template>".data

/-- Model of `re.search(r'<template>(.*)</template>', content, re.DOTALL)` as used by
all three scripts: the match starts at the first `<template>` and, because
`.*` is greedy, extends to the LAST `</template>` in the rest of the file. -/
def extractTemplate (content : List Char) : Option (List Char) :=
  match splitFirst tplOpen content with
  | none => none
  | some (_, r) =>
    match lastSplit tplClose r with
    | none => none
    | some (region, _) => some region

/-- Modelled from the spec: the Extractor as the spec's words describe it
("the first begin-marker paired with the first end-marker that follows"),
declared only to be compared with `extractTemplate`, which is translated
from the source. -/
def extractSpecFirst (content : List Char) : Option (List Char) :=
  match splitFirst tplOpen content with
  | none => none
  | some (_, r) =>
    match splitFirst tplClose r with
    | none => none
    | some (region, _) => some region

/-- Modelled from the spec: the Sanitizer in the order the spec states
(comments removed first, quotes collapsed second), declared only to be
compared with `clean_template`, which is translated from the source. -/
def cleanTemplateSpecOrder (template : List Char) : List Char :=
  collapseQuote '\'' (collapseQuote '"' (removeComments template))

/-!
Tokenizer: `re.findall(r'<(/?[a-zA-Z0-9-]+)(?:\s+[^>]*?)?(/?)\s*>', cleaned)`.
Group 1 is the tag name including a leading `/` for close tags, group 2 is
`/` for explicitly self-closed tags.  The scanners below implement the
deterministic behaviour of this regex:

* at a `<`, an optional `/` is taken exactly when present, then the name is
  the maximal run of `[a-zA-Z0-9-]` (backtracking the run never helps since
  nothing in the pattern tail can match a name character), nonempty;
* after the name, either `>` ends the match (group 2 empty), or `/` must be
  followed by whitespace and then `>` (group 2 `/`), or, after at least one
  whitespace character, the lazy `[^>]*?` grows one character at a time
  until `(/?)\s*>` matches;
* on failure the scan resumes one character further right; on success it
  resumes right after the consumed `>`.
-/

/-- Python `\s` on the characters occurring here (ASCII whitespace). -/
def isWs (c : Char) : Bool :=
  c == ' ' || c == '\t' || c == '\n' || c == '\r' ||
    c == Char.ofNat 11 || c == Char.ofNat 12

/-- A tag-name character, `[a-zA-Z0-9-]`. -/
def isNameChar (c : Char) : Bool :=
  c.isAlpha || c.isDigit || c == '-'

/-- The lazy `[^>]*?(/?)\s*>` part of the tokenizer pattern, entered after
the name and at least one whitespace character: grow the lazy part one
character at a time (never across `>`) until `(/?)\s*>` matches.  Returns
whether group 2 matched `/`, and the rest of the input after the `>`. -/
def lazyScan : List Char → Option (Bool × List Char)
  | [] => none
  | '>' :: r => some (false, r)
  | '/' :: r =>
    match List.dropWhile isWs r with
    | '>' :: r2 => some (true, r2)
    | _ => lazyScan r
  | c :: r =>
    if isWs c then
      match List.dropWhile isWs (c :: r) with
      | '>' :: r2 => some (false, r2)
      | _ => lazyScan r
    else lazyScan r

/-- Matching of `(?:\s+[^>]*?)?(/?)\s*>` directly after the tag name. -/
def tagTail : List Char → Option (Bool × List Char)
  | '>' :: r => some (false, r)
  | '/' :: r =>
    match List.dropWhile isWs r with
    | '>' :: r2 => some (true, r2)
    | _ => none
  | c :: r =>
    if isWs c then lazyScan (List.dropWhile isWs (c :: r)) else none
  | [] => none

/-- Attempt to match the tokenizer pattern at a `<`; the argument is the
input directly after the `<`.  Returns group 1 (name, with leading `/` for
close tags), whether group 2 matched `/`, and the rest of the input. -/
def tagAt (s : List Char) : Option (List Char × Bool × List Char) :=
  match s with
  | '/' :: t =>
    match t.takeWhile isNameChar with
    | [] => none
    | name =>
      match tagTail (t.dropWhile isNameChar) with
      | none => none
      | some (sc, rest) => some ('/' :: name, sc, rest)
  | t =>
    match t.takeWhile isNameChar with
    | [] => none
    | name =>
      match tagTail (t.dropWhile isNameChar) with
      | none => none
      | some (sc, rest) => some (name, sc, rest)

/-- The `re.findall` scan loop: try the pattern at every `<`, emitting the
captured groups of each non-overlapping leftmost match.  Fuelled; every
iteration consumes at least one character. -/
def findTagsGo : Nat → List Char → List (List Char × Bool)
  | 0, _ => []
  | _ + 1, [] => []
  | fuel + 1, c :: rest =>
    if c = '<' then
      match tagAt rest with
      | some (g1, sc, rem) => (g1, sc) :: findTagsGo fuel rem
      | none => findTagsGo fuel rest
    else findTagsGo fuel rest

/-- Model of `re.findall(r'<(/?[a-zA-Z0-9-]+)(?:\s+[^>]*?)?(/?)\s*>', cleaned)`. -/
def findTags (s : List Char) : List (List Char × Bool) :=
  findTagsGo (s.length + 1) s

/-- A structured diagnostic.  `check_tags_v2.py`/`check_tags_v3.py` emit
them as the strings `"Unexpected closing tag </{n}>"`,
`"Mismatched tag: expected </{e}>, found </{f}>"` and
`"Unclosed tag <{n}>"`; only the kind and the embedded names are modelled. -/
inductive Diag where
  | unexpectedClose (n : List Char)
  | mismatched (expected found : List Char)
  | unclosed (n : List Char)
  deriving DecidableEq, Repr

/-- Model of the Python test `tag_name.startswith('/')`. -/
def startsWithSlash (l : List Char) : Bool :=
  l.head? == some '/'

/-- The void-element set `html5_self_closing` shared by v2 and v3. -/
def html5_self_closing : List (List Char) :=
  ["area".data, "base".data, "br".data, "col".data, "embed".data,
   "hr".data, "img".data, "input".data, "link".data, "meta".data,
   "param".data, "source".data, "track".data, "wbr".data]

/-- The token/stack loop of `check_file_tags` (identical in v2 and v3)
followed by the final `for tag in stack: errors.append(...)` loop.

The Python stack appends and pops at the END of the list; here the HEAD of
`stack` is the top, so Python's final bottom-to-top iteration over the
leftover stack is `stack.reverse`.  Diagnostics are emitted in encounter
order, matching the Python `errors` accumulator. -/
def runTags : List (List Char × Bool) → List (List Char) → List Diag
  | [], stack => stack.reverse.map Diag.unclosed
  | (g1, sc) :: rest, stack =>
    if sc then runTags rest stack
    else if startsWithSlash g1 then
      match stack with
      | [] => Diag.unexpectedClose g1.tail :: runTags rest []
      | top :: s =>
        if top == g1.tail then runTags rest s
        else Diag.mismatched top g1.tail :: runTags rest s
    else if html5_self_closing.contains (g1.map Char.toLower) then
      runTags rest stack
    else runTags rest (g1 :: stack)

/-- The function `check_file_tags` of `check_tags_v3.py`, as a function of the file
contents: extract the first template region (greedy to the last end
marker), sanitize it with `clean_template`, tokenize, and run the stack
discipline. -/
def check_file_tags_v3 (content : List Char) : List Diag :=
  match extractTemplate content with
  | none => []
  | some t => runTags (findTags (clean_template t)) []

/-- The function `check_file_tags` of `check_tags_v2.py`: identical to v3 except that
the sanitizer only removes comments (no quote collapsing). -/
def check_file_tags_v2 (content : List Char) : List Diag :=
  match extractTemplate content with
  | none => []
  | some t => runTags (findTags (removeComments t)) []

/-- Diagnostics produced for a bare markup region by the v3 sanitizer,
tokenizer and balance checker (the per-region core of
`check_file_tags_v3`). -/
def regionDiags (region : List Char) : List Diag :=
  runTags (findTags (clean_template region)) []

/-!
`check_tags.py` (v1): the `TagChecker(HTMLParser)` subclass.  Its
tokenization is done by the standard-library `HTMLParser`, which is outside
this repository; the class itself only defines the callbacks
`handle_starttag`, `handle_startendtag`, `handle_endtag` and the
end-of-input loop of `check_file`.  Those callbacks are embedded here as a
state machine over an abstract event list (one event per callback
invocation).  Source positions (`getpos`) only appear inside message
strings and are not modelled.
-/

/-- One `HTMLParser` callback invocation delivered to `TagChecker`. -/
inductive Ev where
  | start (n : List Char)
  | startend (n : List Char)
  | endtag (n : List Char)
  deriving DecidableEq, Repr

/-- The `self_closing` set of `TagChecker.handle_starttag` (membership is
tested on the name as received, without lowercasing). -/
def self_closing_v1 : List (List Char) := html5_self_closing

/-- The recovery search of `TagChecker.handle_endtag`:
`for i in range(len(self.tags) - 1, -1, -1): if self.tags[i][0] == tag:
self.tags = self.tags[:i]; break`.  With the head of the list as top of
stack, this scans from the top for the first entry equal to `n` and, when
found, returns the entries strictly below it; `none` means the loop found
nothing and the stack is left unchanged. -/
def recoverAux (n : List Char) : List (List Char) → Option (List (List Char))
  | [] => none
  | x :: t => if x == n then some t else recoverAux n t

/-- The `TagChecker` state machine over callback events, followed by the
`for tag, pos in parser.tags` loop of `check_file` (bottom of stack first,
i.e. the reverse of the head-is-top representation used here). -/
def runV1 : List Ev → List (List Char) → List Diag
  | [], tags => tags.reverse.map Diag.unclosed
  | Ev.start n :: rest, tags =>
    if self_closing_v1.contains n then runV1 rest tags
    else runV1 rest (n :: tags)
  | Ev.startend _ :: rest, tags => runV1 rest tags
  | Ev.endtag n :: rest, tags =>
    match tags with
    | [] => Diag.unexpectedClose n :: runV1 rest []
    | top :: s =>
      if top == n then runV1 rest s
      else
        Diag.mismatched top n ::
          runV1 rest (match recoverAux n s with
            | some below => below
            | none => s)

/-! Helper lemmas about the scanning primitives. -/

theorem splitFirst_nil_of_ne {p : List Char} (hp : p ≠ []) :
    splitFirst p [] = none := by
  simp [splitFirst, hp]

theorem splitFirst_cons_eq (p : List Char) (x : Char) (t : List Char) :
    splitFirst p (x :: t) =
      if p.isPrefixOf (x :: t) then some ([], (x :: t).drop p.length)
      else
        match splitFirst p t with
        | none => none
        | some (a, r) => some (x :: a, r) := rfl

theorem splitFirst_cons_none_iff {p : List Char} {x : Char} {t : List Char} :
    splitFirst p (x :: t) = none ↔
      p.isPrefixOf (x :: t) = false ∧ splitFirst p t = none := by
  rw [splitFirst_cons_eq]
  cases hpre : p.isPrefixOf (x :: t) with
  | true => simp [hpre]
  | false =>
    simp only [hpre, Bool.false_eq_true, if_false]
    cases h2 : splitFirst p t with
    | none => simp [h2]
    | some v => cases v with | mk a r => simp [h2]

theorem isPrefixOf_append_left {p s u : List Char}
    (h : p.isPrefixOf s = true) : p.isPrefixOf (s ++ u) = true := by
  rw [List.isPrefixOf_iff_prefix] at h ⊢
  exact h.trans (s.prefix_append u)

theorem splitFirst_append_none_left {p a b : List Char}
    (h : splitFirst p (a ++ b) = none) : splitFirst p a = none := by
  induction a with
  | nil =>
    by_cases hp : p = []
    · subst hp
      exfalso
      cases b with
      | nil => simp [splitFirst] at h
      | cons y u => simp [splitFirst, List.isPrefixOf] at h
    · simp [splitFirst, hp]
  | cons x t ih =>
    rw [List.cons_append] at h
    obtain ⟨hpre, ht⟩ := splitFirst_cons_none_iff.mp h
    refine splitFirst_cons_none_iff.mpr ⟨?_, ih ht⟩
    cases hpre2 : p.isPrefixOf (x :: t) with
    | false => rfl
    | true =>
      have := isPrefixOf_append_left (u := b) hpre2
      rw [List.cons_append] at this
      rw [this] at hpre
      exact absurd hpre (by simp)

theorem splitFirst_append_none_right {p a b : List Char}
    (h : splitFirst p (a ++ b) = none) : splitFirst p b = none := by
  induction a with
  | nil => simpa using h
  | cons x t ih =>
    rw [List.cons_append] at h
    exact ih (splitFirst_cons_none_iff.mp h).2

theorem splitFirst_not_mem {c : Char} {s : List Char} (h : c ∉ s) :
    splitFirst [c] s = none := by
  induction s with
  | nil => simp [splitFirst]
  | cons x t ih =>
    have hx : x ≠ c := fun hxc => h (hxc ▸ List.mem_cons_self x t)
    have ht : c ∉ t := fun hct => h (List.mem_cons_of_mem x hct)
    refine splitFirst_cons_none_iff.mpr ⟨?_, ih ht⟩
    simp [List.isPrefixOf, List.isPrefixOf_iff_prefix, List.prefix_cons_iff]
    intro hcx
    exact absurd hcx.symm hx

theorem splitFirst_pattern_head {p r : List Char} (hp : p ≠ []) :
    splitFirst p (p ++ r) = some ([], r) := by
  cases hq : p ++ r with
  | nil =>
    exact absurd (List.append_eq_nil.mp hq).1 hp
  | cons y u =>
    rw [← hq]
    have hpre : p.isPrefixOf (p ++ r) = true := by
      rw [List.isPrefixOf_iff_prefix]
      exact p.prefix_append r
    have hne : p ++ r ≠ [] := by simp [hq]
    cases hs : p ++ r with
    | nil => exact absurd hs hne
    | cons z v =>
      rw [← hs]
      unfold splitFirst
      rw [hs] at hpre ⊢
      simp only [hpre, if_true]
      rw [← hs, List.drop_left]

theorem splitFirst_eq_append {p : List Char} :
    ∀ {s a r : List Char}, splitFirst p s = some (a, r) → s = a ++ p ++ r := by
  intro s
  induction s with
  | nil =>
    intro a r h
    unfold splitFirst at h
    by_cases hp : p = []
    · simp [hp] at h
      simp [hp, h.1, h.2]
    · simp [hp] at h
  | cons x t ih =>
    intro a r h
    unfold splitFirst at h
    cases hpre : p.isPrefixOf (x :: t) with
    | true =>
      rw [hpre] at h
      simp only [if_true] at h
      obtain ⟨ha, hr⟩ := Prod.mk.injEq .. ▸ Option.some.injEq .. ▸ h
      rw [List.isPrefixOf_iff_prefix] at hpre
      obtain ⟨u, hu⟩ := hpre
      injection h with h'
      injection h' with h1 h2
      subst h1
      rw [← hu, List.drop_left] at h2
      subst h2
      simp [← hu]
    | false =>
      rw [hpre] at h
      simp only [Bool.false_eq_true, if_false] at h
      cases h2 : splitFirst p t with
      | none => rw [h2] at h; exact absurd h (by simp)
      | some v =>
        cases v with
        | mk a' r' =>
          rw [h2] at h
          injection h with h'
          injection h' with h1 hr
          subst h1
          subst hr
          have := ih h2
          simp [this]

/-- A pattern that does not overlap a shifted copy of itself: no proper
nonempty prefix `p.take n` of `p` lets `p.take n ++ p` start with `p`. -/
def NoSelfOverlap (p : List Char) : Prop :=
  ∀ n, n < p.length → 0 < n → p ≠ p.take n ++ p.take (p.length - n)

theorem noSelfOverlap_cmtOpen : NoSelfOverlap cmtOpen := by
  unfold NoSelfOverlap
  decide

theorem noSelfOverlap_cmtClose : NoSelfOverlap cmtClose := by
  unfold NoSelfOverlap
  decide

/-- If `A` contains no occurrence of `p`, the first occurrence of `p` in
`A ++ p ++ r` is the explicit middle one. -/
theorem splitFirst_append_pattern {p : List Char} (hp : p ≠ [])
    (hov : NoSelfOverlap p) :
    ∀ {A r : List Char}, splitFirst p A = none →
      splitFirst p (A ++ p ++ r) = some (A, r) := by
  intro A
  induction A with
  | nil =>
    intro r _
    simpa using splitFirst_pattern_head (r := r) hp
  | cons x t ih =>
    intro r hA
    obtain ⟨hpre, ht⟩ := splitFirst_cons_none_iff.mp hA
    have hassoc : (x :: t) ++ p ++ r = x :: (t ++ p ++ r) := by simp
    rw [hassoc, splitFirst_cons_eq]
    have hpre2 : p.isPrefixOf (x :: (t ++ p ++ r)) = false := by
      cases hpc : p.isPrefixOf (x :: (t ++ p ++ r)) with
      | false => rfl
      | true =>
        exfalso
        have hpfx : p <+: (x :: t) ++ (p ++ r) := by
          rw [List.isPrefixOf_iff_prefix] at hpc
          simpa using hpc
        have htake : p = ((x :: t) ++ (p ++ r)).take p.length :=
          List.prefix_iff_eq_take.mp hpfx
        by_cases hlen : p.length ≤ (x :: t).length
        · have : p = (x :: t).take p.length := by
            rwa [List.take_append_of_le_length hlen] at htake
          have : p <+: x :: t := this ▸ List.take_prefix p.length (x :: t)
          rw [← List.isPrefixOf_iff_prefix] at this
          rw [this] at hpre
          exact absurd hpre (by simp)
        · push_neg at hlen
          have hlen' : (x :: t).length ≤ p.length := Nat.le_of_lt hlen
          have htake2 := htake
          rw [List.take_append_eq_append_take,
            List.take_of_length_le hlen'] at htake2
          have htake3 : (p ++ r).take (p.length - (x :: t).length)
              = p.take (p.length - (x :: t).length) := by
            apply List.take_append_of_le_length
            exact Nat.sub_le_of_le_add (Nat.le_add_right _ _)
          rw [htake3] at htake2
          have hxt : (x :: t) = p.take (x :: t).length := by
            have h5 := congrArg (List.take (x :: t).length) htake2
            rw [List.take_append_of_le_length (Nat.le_refl _),
              List.take_length] at h5
            exact h5.symm
          apply hov (x :: t).length hlen (by simp)
          rw [← hxt]
          exact htake2
    simp only [hpre2, Bool.false_eq_true, if_false]
    rw [ih ht]

/-- The scanner `collapseQuoteGo` is the identity whenever the quote character is
absent, for any fuel. -/
theorem collapseQuoteGo_of_none {c : Char} {s : List Char}
    (h : splitFirst [c] s = none) :
    ∀ fuel, collapseQuoteGo c fuel s = s := by
  intro fuel
  cases fuel with
  | zero => rfl
  | succ f => simp [collapseQuoteGo, h]

/-- The quote-collapsing pass is the identity on quote-free text. -/
theorem collapseQuote_of_not_mem {c : Char} {s : List Char} (h : c ∉ s) :
    collapseQuote c s = s :=
  collapseQuoteGo_of_none (splitFirst_not_mem h) _

/-- The scanner `removeCommentsGo` is the identity whenever no comment open marker
occurs, for any fuel. -/
theorem removeCommentsGo_of_none {s : List Char}
    (h : splitFirst cmtOpen s = none) :
    ∀ fuel, removeCommentsGo fuel s = s := by
  intro fuel
  cases fuel with
  | zero => rfl
  | succ f => simp [removeCommentsGo, h]

theorem removeComments_of_none {s : List Char}
    (h : splitFirst cmtOpen s = none) : removeComments s = s :=
  removeCommentsGo_of_none h _

/-- Soundness of `lastSplit`: it returns a decomposition of its input. -/
theorem lastSplit_eq_append {p s t after : List Char}
    (h : lastSplit p s = some (t, after)) : s = t ++ p ++ after := by
  unfold lastSplit at h
  cases h2 : splitFirst p.reverse s.reverse with
  | none => rw [h2] at h; exact absurd h (by simp)
  | some v =>
    cases v with
    | mk b a =>
      rw [h2] at h
      injection h with h'
      injection h' with h1 h3
      have hs := splitFirst_eq_append h2
      have := congrArg List.reverse hs
      simp only [List.reverse_reverse, List.reverse_append] at this
      rw [this, ← h1, ← h3]
      simp

/-- The last occurrence of `p` in `X ++ p` is the final one, whatever `X`
contains. -/
theorem lastSplit_append_self {p : List Char} (hp : p ≠ []) (X : List Char) :
    lastSplit p (X ++ p) = some (X, []) := by
  unfold lastSplit
  have hrev : (X ++ p).reverse = p.reverse ++ X.reverse := by
    simp
  have hne : p.reverse ≠ [] := by simpa using hp
  rw [hrev, splitFirst_pattern_head hne]
  simp

/-- The final-stack lemma behind the end-of-input behaviour: a sequence of
plain open tokens whose names are not closers and not void elements leaves
exactly those names on the stack, and the trailing `for tag in stack` loop
reports them in push order (first-opened first), on top of whatever was
below on the stack. -/
theorem runTags_opens (ns : List (List Char)) (s : List (List Char))
    (h : ∀ n ∈ ns, startsWithSlash n = false ∧
      html5_self_closing.contains (n.map Char.toLower) = false) :
    runTags (ns.map (fun n => (n, false))) s
      = (s.reverse ++ ns).map Diag.unclosed := by
  induction ns generalizing s with
  | nil => simp [runTags]
  | cons n ns ih =>
    obtain ⟨h1, h2⟩ := h n (List.mem_cons_self n ns)
    have hrest : ∀ m ∈ ns, startsWithSlash m = false ∧
        html5_self_closing.contains (m.map Char.toLower) = false :=
      fun m hm => h m (List.mem_cons_of_mem n hm)
    simp only [List.map_cons, runTags, h1, h2, Bool.false_eq_true, if_false]
    rw [ih (n :: s) hrest]
    simp

/-- C6 (confirmed): the quoted attribute value `"</div>"` is collapsed by
the sanitizer, so `<div title="</div>">` tokenizes as exactly one Open
token named `div` with no Close token, and checking it yields exactly one
Unclosed diagnostic for `div` and nothing else. -/
theorem c6_quoted_attribute_immunity :
    findTags (clean_template "<div title=\"</div>\">".data)
        = [("div".data, false)] ∧
    check_file_tags_v3 "<template><div title=\"</div>\"></template>".data
      = [Diag.unclosed "div".data] :=
  ⟨rfl, rfl⟩

/-- C7 (confirmed): open/close matching compares names with plain list
equality, case-sensitively and without normalization: any close whose name
differs from the pushed open name — in particular one differing only in
letter case, such as `<Div></div>` — produces a Mismatched diagnostic
instead of a silent match. -/
theorem c7_case_sensitive_matching (c : Char) (a b : List Char)
    (hslash : c ≠ '/')
    (hvoid : html5_self_closing.contains ((c :: a).map Char.toLower) = false)
    (hne : ((c :: a) == b) = false) :
    runTags [(c :: a, false), ('/' :: b, false)] []
        = [Diag.mismatched (c :: a) b] ∧
    check_file_tags_v3 "<template><Div></div></template>".data
      = [Diag.mismatched "Div".data "div".data] := by
  constructor
  · have hvoid' : c.toLower :: a.map Char.toLower ∉ html5_self_closing := by
      simpa using hvoid
    simp [runTags, startsWithSlash, hslash, hvoid', hne]
  · rfl

/-- Witness for `c7_case_sensitive_matching` at `<Div></div>`. -/
theorem c7_witness :
    runTags [('D' :: "iv".data, false), ('/' :: "div".data, false)] []
      = [Diag.mismatched ('D' :: "iv".data) "div".data] :=
  (c7_case_sensitive_matching 'D' "iv".data "div".data (by decide)
    (by decide) (by decide)).1

/-- C8 (confirmed): every name in `html5_self_closing`, written as a bare
`<name>` with no slash and no closer, produces zero diagnostics — the open
token's name is lower-cased for the membership test and never pushed; the
lower-casing also covers upper-case spellings such as `<BR>`. -/
theorem c8_void_elements (n : List Char) (hn : n ∈ html5_self_closing) :
    check_file_tags_v3 ("<template><".data ++ n ++ "></template>".data) = [] ∧
    check_file_tags_v3 "<template><BR></template>".data = [] := by
  constructor
  · revert hn
    revert n
    decide
  · rfl

/-- Witness for `c8_void_elements` at `<br>`. -/
theorem c8_witness :
    check_file_tags_v3 ("<template><".data ++ "br".data ++ "></template>".data)
        = [] ∧
    check_file_tags_v3 "<template><BR></template>".data = [] :=
  c8_void_elements "br".data (by decide)

/-- C9 (confirmed): a Close token arriving on an empty stack emits exactly
one UnexpectedClose diagnostic naming the closer, leaves the stack empty,
and scanning continues with the remaining tokens; `</div>` alone yields
exactly one UnexpectedClose diagnostic and nothing else. -/
theorem c9_unexpected_close_on_empty_stack :
    (∀ (n : List Char) (rest : List (List Char × Bool)),
        runTags (('/' :: n, false) :: rest) []
          = Diag.unexpectedClose n :: runTags rest []) ∧
    check_file_tags_v3 "<template></div></template>".data
      = [Diag.unexpectedClose "div".data] :=
  ⟨fun _ _ => rfl, rfl⟩

/-- C1 (refuted as stated): in `check_tags_v3.py` the template body
`<div><span></div>` produces one Mismatched diagnostic AND one Unclosed
diagnostic for `div` — not the zero Unclosed diagnostics the claim
states, because v3 performs no recovery search after the forced pop. -/
theorem c1_counterexample :
    check_file_tags_v3 "<template><div><span></div></template>".data
        = [Diag.mismatched "span".data "div".data, Diag.unclosed "div".data] ∧
    (check_file_tags_v3 "<template><div><span></div></template>".data).countP
        (fun d => match d with | Diag.unclosed _ => true | _ => false) ≠ 0 :=
  ⟨rfl, by decide⟩

/-- C1 (amended): in v3 a mismatching Close token emits exactly one
Mismatched diagnostic and leaves the stack exactly as it is after the
single pop — no recovery search, whatever the deeper stack contains; the
recovery search described by the claim exists only in `check_tags.py`'s
`TagChecker`, where the event sequence of `<div><span></div>` yields
exactly one Mismatched diagnostic and zero Unclosed diagnostics. -/
theorem c1_amended_no_recovery_in_v3 :
    (∀ (n top : List Char) (s : List (List Char))
        (rest : List (List Char × Bool)),
        (top == n) = false →
        runTags (('/' :: n, false) :: rest) (top :: s)
          = Diag.mismatched top n :: runTags rest s) ∧
    runV1 [Ev.start "div".data, Ev.start "span".data, Ev.endtag "div".data] []
      = [Diag.mismatched "span".data "div".data] := by
  constructor
  · intro n top s rest hne
    simp [runTags, startsWithSlash, hne]
  · rfl

/-- Witness for `c1_amended_no_recovery_in_v3`: popping `span` against
`</div>` in v3 leaves the rest of the stack untouched. -/
theorem c1_witness :
    runTags [('/' :: "div".data, false)] ("span".data :: ["div".data])
      = Diag.mismatched "span".data "div".data
          :: runTags [] ["div".data] :=
  c1_amended_no_recovery_in_v3.1 "div".data "span".data ["div".data] []
    (by decide)

/-- C2 (refuted as stated): the template body `<div><span>` yields the two
Unclosed diagnostics in the order `div` then `span` — the final
`for tag in stack` loop iterates the Python list from the bottom of the
stack (first-opened tag first), not innermost-first as the claim states. -/
theorem c2_counterexample :
    check_file_tags_v3 "<template><div><span></template>".data
        = [Diag.unclosed "div".data, Diag.unclosed "span".data] ∧
    check_file_tags_v3 "<template><div><span></template>".data
      ≠ [Diag.unclosed "span".data, Diag.unclosed "div".data] :=
  ⟨rfl, by decide⟩

/-- C2 (amended): at end of input one Unclosed diagnostic is emitted per
stack entry, in bottom-to-top order (first-opened / outermost tag first):
a body consisting of opens `n₁ … nₖ` reports Unclosed `n₁ … nₖ` in that
order, and `<div><span>` reports `div` then `span`. -/
theorem c2_amended_unclosed_bottom_up (ns : List (List Char))
    (h : ∀ n ∈ ns, startsWithSlash n = false ∧
      html5_self_closing.contains (n.map Char.toLower) = false) :
    runTags (ns.map (fun n => (n, false))) [] = ns.map Diag.unclosed ∧
    check_file_tags_v3 "<template><div><span></template>".data
      = [Diag.unclosed "div".data, Diag.unclosed "span".data] := by
  refine ⟨?_, rfl⟩
  have := runTags_opens ns [] h
  simpa using this

/-- Witness for `c2_amended_unclosed_bottom_up` at the stack
`div`, `span`. -/
theorem c2_witness :
    runTags (["div".data, "span".data].map (fun n => (n, false))) []
        = ["div".data, "span".data].map Diag.unclosed ∧
    check_file_tags_v3 "<template><div><span></template>".data
      = [Diag.unclosed "div".data, Diag.unclosed "span".data] :=
  c2_amended_unclosed_bottom_up ["div".data, "span".data] (by decide)

/-- C3 (refuted as stated): the extraction regex
`<template>(.*)</template>` is greedy, so the region reaches the LAST
end marker, not the first one: on
`<template></template></div></template>` the extracted region is
`</template></div>` (the spec-described first-marker extraction would give
the empty region), and the text after the first end marker produces two
UnexpectedClose diagnostics. -/
theorem c3_counterexample :
    extractTemplate "<template></template></div></template>".data
        = some "</template></div>".data ∧
    extractSpecFirst "<template></template></div></template>".data
        = some [] ∧
    extractTemplate "<template></template></div></template>".data
        ≠ extractSpecFirst "<template></template></div></template>".data ∧
    check_file_tags_v3 "<template></template></div></template>".data
      = [Diag.unexpectedClose "template".data,
         Diag.unexpectedClose "div".data] :=
  ⟨rfl, rfl, by decide, rfl⟩

/-- C3 (amended): the extracted markup region is the substring between the
first begin marker and the LAST end marker: wrapping any text `X` — even
one containing further end markers — between one begin marker and one
final end marker extracts exactly `X`. -/
theorem c3_amended_greedy_extraction (X : List Char) :
    extractTemplate (tplOpen ++ X ++ tplClose) = some X := by
  have h1 : splitFirst tplOpen (tplOpen ++ (X ++ tplClose))
      = some ([], X ++ tplClose) :=
    splitFirst_pattern_head (by decide)
  have h2 : lastSplit tplClose (X ++ tplClose) = some (X, []) :=
    lastSplit_append_self (by decide) X
  simp [extractTemplate, List.append_assoc, h1, h2]

/-- C4 (refuted as stated): `clean_template` collapses quotes BEFORE
removing comments, and the two orders are inequivalent: on
`"<!--" <div> "-->"` the source order leaves `"" <div> ""` (the comment
markers disappear inside the collapsed quotes, the `<div>` survives) while
the spec's comment-first order leaves only `""`. -/
theorem c4_counterexample :
    clean_template "\"<!--\" <div> \"-->\"".data = "\"\" <div> \"\"".data ∧
    cleanTemplateSpecOrder "\"<!--\" <div> \"-->\"".data = "\"\"".data ∧
    clean_template "\"<!--\" <div> \"-->\"".data
      ≠ cleanTemplateSpecOrder "\"<!--\" <div> \"-->\"".data :=
  ⟨rfl, rfl, by decide⟩

/-- C4 (amended): the sanitizer equals the composition double-quote
collapse, then single-quote collapse, then comment removal — the passes
run in the opposite of the claimed order, and the two compositions
genuinely differ. -/
theorem c4_amended_quotes_before_comments :
    (∀ t : List Char,
        clean_template t
          = removeComments (collapseQuote '\'' (collapseQuote '"' t))) ∧
    clean_template "\"<!--\" <div> \"-->\"".data
      ≠ cleanTemplateSpecOrder "\"<!--\" <div> \"-->\"".data :=
  ⟨fun _ => rfl, by decide⟩

/-- C5 (refuted as stated): comment immunity fails in v3 because quote
collapsing runs before comment removal: prepending the comment `<!--"-->`
to the region `"<p>"` changes the diagnostics from none to one Unclosed
`p` (the quote inside the comment pairs with a region quote, the collapse
swallows the comment's close marker, and the no-longer-terminated comment
leaves `<p>` exposed). -/
theorem c5_counterexample :
    regionDiags ((cmtOpen ++ "\"".data ++ cmtClose) ++ "\"<p>\"".data)
        = [Diag.unclosed "p".data] ∧
    regionDiags "\"<p>\"".data = [] ∧
    regionDiags ((cmtOpen ++ "\"".data ++ cmtClose) ++ "\"<p>\"".data)
      ≠ regionDiags "\"<p>\"".data :=
  ⟨rfl, rfl, by decide⟩

/-- C5 (amended): comment immunity holds in v3 provided the quote passes
cannot interact with the comment — the comment interior contains no close
marker and no quote characters, and the surrounding region contains no
quote characters and no comment open marker of its own: then inserting the
comment anywhere in the region leaves the diagnostics unchanged. -/
theorem c5_amended_comment_immunity (A t B : List Char)
    (hAB : splitFirst cmtOpen (A ++ B) = none)
    (ht : splitFirst cmtClose t = none)
    (hdq : '"' ∉ A ++ t ++ B)
    (hsq : '\'' ∉ A ++ t ++ B) :
    regionDiags (A ++ (cmtOpen ++ t ++ cmtClose) ++ B)
      = regionDiags (A ++ B) := by
  have hmem : ∀ c : Char, c ∉ A ++ t ++ B → c ∉ cmtOpen → c ∉ cmtClose →
      c ∉ A ++ (cmtOpen ++ t ++ cmtClose) ++ B := by
    intro c h hco hcc hc
    simp only [List.mem_append] at h hc
    tauto
  have hdq1 : '"' ∉ A ++ (cmtOpen ++ t ++ cmtClose) ++ B :=
    hmem _ hdq (by decide) (by decide)
  have hsq1 : '\'' ∉ A ++ (cmtOpen ++ t ++ cmtClose) ++ B :=
    hmem _ hsq (by decide) (by decide)
  have hdq0 : '"' ∉ A ++ B := by
    simp only [List.mem_append] at hdq ⊢
    tauto
  have hsq0 : '\'' ∉ A ++ B := by
    simp only [List.mem_append] at hsq ⊢
    tauto
  have hA : splitFirst cmtOpen A = none := splitFirst_append_none_left hAB
  have hB : splitFirst cmtOpen B = none := splitFirst_append_none_right hAB
  have hsplit1 : splitFirst cmtOpen (A ++ (cmtOpen ++ t ++ cmtClose) ++ B)
      = some (A, t ++ cmtClose ++ B) := by
    have := splitFirst_append_pattern (p := cmtOpen) (by decide)
      noSelfOverlap_cmtOpen (A := A) (r := t ++ (cmtClose ++ B)) hA
    simpa [List.append_assoc] using this
  have hsplit2 : splitFirst cmtClose (t ++ cmtClose ++ B) = some (t, B) := by
    have := splitFirst_append_pattern (p := cmtClose) (by decide)
      noSelfOverlap_cmtClose (A := t) (r := B) ht
    simpa [List.append_assoc] using this
  have hclean1 : clean_template (A ++ (cmtOpen ++ t ++ cmtClose) ++ B)
      = A ++ B := by
    unfold clean_template
    rw [collapseQuote_of_not_mem hdq1, collapseQuote_of_not_mem hsq1]
    unfold removeComments
    simp only [removeCommentsGo, hsplit1, hsplit2]
    rw [removeCommentsGo_of_none hB]
  have hclean0 : clean_template (A ++ B) = A ++ B := by
    unfold clean_template
    rw [collapseQuote_of_not_mem hdq0, collapseQuote_of_not_mem hsq0]
    exact removeComments_of_none hAB
  unfold regionDiags
  rw [hclean0, hclean1]

/-- Witness for `c5_amended_comment_immunity`: inserting `<!--<div>-->`
between `<p>` and `</p>` leaves the diagnostics unchanged. -/
theorem c5_witness :
    regionDiags ("<p>".data ++ (cmtOpen ++ "<div>".data ++ cmtClose)
        ++ "</p>".data)
      = regionDiags ("<p>".data ++ "</p>".data) :=
  c5_amended_comment_immunity "<p>".data "<div>".data "</p>".data
    (by decide) (by decide) (by decide) (by decide)

/-- C10 (confirmed): on any file content free of double and single quotes
the v2 and v3 checkers agree — the quote-collapsing passes are the
identity there, after which the two pipelines are the same extraction,
comment removal, tokenization and stack discipline. -/
theorem c10_v2_v3_agree_without_quotes (content : List Char)
    (hdq : '"' ∉ content) (hsq : '\'' ∉ content) :
    check_file_tags_v2 content = check_file_tags_v3 content := by
  unfold check_file_tags_v2 check_file_tags_v3
  cases hx : extractTemplate content with
  | none => rfl
  | some t =>
    have hmem : ∀ c : Char, c ∈ t → c ∈ content := by
      unfold extractTemplate at hx
      cases h1 : splitFirst tplOpen content with
      | none => rw [h1] at hx; exact absurd hx (by simp)
      | some v =>
        cases v with
        | mk a r =>
          rw [h1] at hx
          simp only at hx
          cases h2 : lastSplit tplClose r with
          | none => rw [h2] at hx; exact absurd hx (by simp)
          | some w =>
            cases w with
            | mk reg after =>
              rw [h2] at hx
              simp only [Option.some.injEq] at hx
              subst hx
              have hc := splitFirst_eq_append h1
              have hr := lastSplit_eq_append h2
              intro c hct
              rw [hc, hr]
              simp only [List.mem_append]
              tauto
    have hdqt : '"' ∉ t := fun h => hdq (hmem _ h)
    have hsqt : '\'' ∉ t := fun h => hsq (hmem _ h)
    show runTags (findTags (removeComments t)) []
      = runTags (findTags (removeComments
          (collapseQuote '\'' (collapseQuote '"' t)))) []
    rw [collapseQuote_of_not_mem hdqt, collapseQuote_of_not_mem hsqt]

/-- Witness for `c10_v2_v3_agree_without_quotes` on a quote-free file. -/
theorem c10_witness :
    check_file_tags_v2 "<template><div></div></template>".data
      = check_file_tags_v3 "<template><div></div></template>".data :=
  c10_v2_v3_agree_without_quotes "<template><div></div></template>".data
    (by decide) (by decide)
/-- Sanity of the tokenizer embedding: open, close, attribute-bearing and
explicitly self-closed tags are classified as the source regex does. -/
theorem findTags_sanity :
    findTags "<div><span></div>".data
        = [("div".data, false), ("span".data, false), ("/div".data, false)] ∧
    findTags "<div title=\"\">".data = [("div".data, false)] ∧
    findTags "<br />".data = [("br".data, true)] :=
  ⟨rfl, rfl, rfl⟩

/-- Sanity of the whole v3 pipeline: a well-formed, properly nested body
mixing a void element with ordinary tags yields zero diagnostics. -/
theorem check_file_tags_v3_clean_sanity :
    check_file_tags_v3 "<template><img><div></div></template>".data = [] :=
  rfl
